import Mathlib

/-!
Verification of the `claude-progress-monitor` repository.

The development shallowly embeds the two core source modules:

* `src/progress.py` — the `ProgressTracker` sample store / rate estimator and
  the `ProgressBar` renderer.  `datetime` timestamps are modelled as rational
  numbers of seconds; Python float arithmetic is modelled exactly over `ℚ`.
* `src/monitor.py` — the `Monitor` task-lifecycle controller.  The polling
  coroutine `_execute_with_monitoring` (together with the surrounding
  `spawn_with_monitoring` exception/cleanup handling, which runs synchronously
  at loop exit) is modelled as a step function over an explicit run state, and
  external `kill_task` calls are modelled as interleaved steps at the loop's
  only suspension point (`await asyncio.sleep(5)`).
-/

/-- A recorded progress observation.  `ProgressTracker.add_update` stores
dicts `{'percentage': ..., 'timestamp': ...}` (progress.py lines 51-54);
timestamps are modelled as rational numbers of seconds. -/
structure Sample where
  percentage : Int
  timestamp : ℚ
deriving DecidableEq, Repr

/-- `ProgressTracker.__init__` (progress.py lines 36-37): `self.updates` is a
dict from task id to its list of samples, modelled as an association list in
insertion order. -/
structure ProgressTracker where
  updates : List (String × List Sample)
deriving DecidableEq, Repr

/-- Dict lookup `self.updates[task_id]`, with `none` for `task_id not in
self.updates`. -/
def lookupUpdates : List (String × List Sample) → String → Option (List Sample)
  | [], _ => none
  | (i, l) :: rest, id => if i == id then some l else lookupUpdates rest id

/-- Dict write used by `add_update`: create the key with `[]` when absent,
then append the new sample to the key's list. -/
def appendUpdate : List (String × List Sample) → String → Sample → List (String × List Sample)
  | [], id, s => [(id, [s])]
  | (i, l) :: rest, id, s =>
      if i == id then (i, l ++ [s]) :: rest else (i, l) :: appendUpdate rest id s

/-- `ProgressTracker.add_update` (progress.py lines 39-54): records one
progress update; the percentage is stored unclamped. -/
def ProgressTracker.add_update (t : ProgressTracker) (task_id : String)
    (percentage : Int) (timestamp : ℚ) : ProgressTracker :=
  ⟨appendUpdate t.updates task_id ⟨percentage, timestamp⟩⟩

/-- Python `updates[0]` (the list is nonempty wherever this is used; the
default value is never reached there). -/
def firstSample : List Sample → Sample
  | [] => ⟨0, 0⟩
  | s :: _ => s

/-- Python `updates[-1]` (the list is nonempty wherever this is used; the
default value is never reached there). -/
def lastSample : List Sample → Sample
  | [] => ⟨0, 0⟩
  | [s] => s
  | _ :: rest => lastSample rest

/-- `ProgressTracker.get_progress_rate` (progress.py lines 56-79): percentage
per minute between the first and last recorded samples, `0.0` when fewer than
two samples exist or the elapsed time between them is zero. -/
def ProgressTracker.get_progress_rate (t : ProgressTracker) (task_id : String) : ℚ :=
  match lookupUpdates t.updates task_id with
  | none => 0
  | some updates =>
    if updates.length < 2 then 0
    else
      let first := firstSample updates
      let last := lastSample updates
      let time_diff := (last.timestamp - first.timestamp) / 60
      let progress_diff := (last.percentage : ℚ) - (first.percentage : ℚ)
      if time_diff = 0 then 0 else progress_diff / time_diff

/-- `ProgressTracker.estimate_completion` (progress.py lines 81-104): the last
sample's timestamp plus `(100 - last.percentage) / rate` minutes, or `none`
when the id is unknown or the rate is non-positive.  `timedelta(minutes=m)`
is `60 * m` seconds. -/
def ProgressTracker.estimate_completion (t : ProgressTracker) (task_id : String) : Option ℚ :=
  match lookupUpdates t.updates task_id with
  | none => none
  | some updates =>
    let rate := t.get_progress_rate task_id
    if rate ≤ 0 then none
    else
      let last := lastSample updates
      let remaining := 100 - (last.percentage : ℚ)
      let minutes_remaining := remaining / rate
      some (last.timestamp + 60 * minutes_remaining)

/-- The filled glyph of the bar (progress.py line 27). -/
def fillChar : Char := '▰'

/-- The empty glyph of the bar (progress.py line 27). -/
def emptyChar : Char := '▱'

/-- `ProgressBar` (progress.py lines 9-30): percentage clamped to `[0,100]`
at construction, together with the bar width. -/
structure ProgressBar where
  percentage : Int
  width : Nat
deriving DecidableEq, Repr

/-- `ProgressBar.__init__` (progress.py lines 12-21):
`self.percentage = max(0, min(100, percentage))`. -/
def ProgressBar.init (percentage : Int) (width : Nat) : ProgressBar :=
  { percentage := max 0 (min 100 percentage), width := width }

/-- Round a rational to the nearest integer, ties to even. -/
def rne (m : ℚ) : ℤ :=
  if m - ⌊m⌋ < 1 / 2 then ⌊m⌋
  else if 1 / 2 < m - ⌊m⌋ then ⌊m⌋ + 1
  else if ⌊m⌋ % 2 = 0 then ⌊m⌋ else ⌊m⌋ + 1

/-- IEEE-754 binary64 rounding of a positive rational (round to nearest,
ties to even): the value is scaled into the binade `[2^52, 2^53)` of 53-bit
significands, the significand is rounded to an integer, and the result is
scaled back. -/
def fl64Pos (y : ℚ) : ℚ :=
  (rne (y * 2 ^ (52 - Int.log 2 y)) : ℚ) * 2 ^ (Int.log 2 y - 52)

/-- IEEE-754 binary64 rounding of a rational.  The exponent range is left
unbounded: overflow and subnormal behaviour are not modelled, and every
value evaluated in the theorems below lies well inside the normal range. -/
def fl64 (x : ℚ) : ℚ :=
  if 0 < x then fl64Pos x
  else if x < 0 then -fl64Pos (-x)
  else 0

/-- `ProgressBar.render` (progress.py lines 23-27):
`filled = int(self.percentage / 100 * self.width)` evaluated in IEEE-754
binary64 arithmetic, as Python evaluates it: the integer division
`percentage / 100` produces the correctly rounded double of the exact
quotient, the width is converted to a double, the product is correctly
rounded again, and `int` truncates — equal to the floor, the value being
nonnegative. -/
def ProgressBar.render (b : ProgressBar) : String :=
  let filled := (⌊fl64 (fl64 ((b.percentage : ℚ) / 100) * fl64 (b.width : ℚ))⌋).toNat
  let empty := b.width - filled
  String.mk (List.replicate filled fillChar ++ List.replicate empty emptyChar)

/-- The two-sample store used as a concrete witness input: samples
`(0%, t=0s)` and `(50%, t=300s)` for task `"a"`, built with `add_update`. -/
def exampleTracker : ProgressTracker :=
  (ProgressTracker.add_update ⟨[]⟩ "a" 0 0).add_update "a" 50 300

/-- `SubagentTask` (monitor.py lines 23-35): the record held in the
Controller's registry.  Times are integer seconds relative to the task's
spawn (so `start_time = 0`); the dataclass field `next_check`, which no code
ever reads, is omitted. -/
structure SubagentTask where
  task_id : String
  description : String
  start_time : Int
  timeout : Int
  tools : List String
  status : String
  progress : Int
  last_update : Int
  check_interval : Int
deriving DecidableEq, Repr

/-- The task record created by `spawn_with_monitoring` (monitor.py lines
99-108): status `"running"` (the dataclass default), progress 0. -/
def SubagentTask.create (task_id description : String) (timeout : Int)
    (tools : List String) : SubagentTask :=
  { task_id := task_id, description := description, start_time := 0,
    timeout := timeout, tools := tools, status := "running", progress := 0,
    last_update := 0, check_interval := 60 }

/-- Registry (`self.active_tasks`) lookup by task id. -/
def lookupTask : List (String × SubagentTask) → String → Option SubagentTask
  | [], _ => none
  | (i, t) :: rest, id => if i == id then some t else lookupTask rest id

/-- Mutation of the registry entry for `id`: Python mutates the shared
`SubagentTask` object in place, so the registry sees the updated record. -/
def setTask : List (String × SubagentTask) → String → SubagentTask →
    List (String × SubagentTask)
  | [], _, _ => []
  | (i, t) :: rest, id, t2 =>
      if i == id then (i, t2) :: rest else (i, t) :: setTask rest id t2

/-- `del self.active_tasks[task_id]` (monitor.py lines 155-156). -/
def removeTask : List (String × SubagentTask) → String → List (String × SubagentTask)
  | [], _ => []
  | (i, t) :: rest, id => if i == id then rest else (i, t) :: removeTask rest id

/-- `Monitor.kill_task` (monitor.py lines 246-266): returns `False` when the
id is not in the registry; otherwise sets the task's status to `"killed"`
(without consulting the previous status) and returns `True`. -/
def Monitor.kill_task (reg : List (String × SubagentTask)) (task_id : String) :
    Bool × List (String × SubagentTask) :=
  match lookupTask reg task_id with
  | none => (false, reg)
  | some t => (true, setTask reg task_id { t with status := "killed" })

/-- One snapshot of `Monitor.list_active_tasks` (monitor.py lines 270-278). -/
structure TaskSnapshot where
  task_id : String
  status : String
  progress : Int
  elapsed : Int
deriving DecidableEq, Repr

/-- `Monitor.list_active_tasks` (monitor.py lines 268-278): a snapshot of
every record currently in `self.active_tasks`, whatever its status;
`elapsed` is derived from the current time `now`. -/
def Monitor.list_active_tasks (reg : List (String × SubagentTask)) (now : Int) :
    List TaskSnapshot :=
  reg.map fun p =>
    { task_id := p.2.task_id, status := p.2.status, progress := p.2.progress,
      elapsed := now - p.2.start_time }

/-- Observable events of one monitored run: progress callbacks, terminal
callbacks, and the outcome of the registration call itself.  A callback
event records the invocation that takes place when the corresponding
optional callback was supplied; the `if on_progress:`-style guards in the
source only gate that delivery. -/
inductive Event where
  | progressCb (task_id : String) (percentage : Int)
  | completeCb (task_id : String)
  | errorCb (task_id : String) (kind : String)
  | raised (task_id : String) (kind : String)
  | returned (task_id : String)
deriving DecidableEq, Repr

/-- How the registration call `spawn_with_monitoring` finished: normal
return, `TimeoutError` raised, or `SubagentError` raised. -/
inductive Outcome where
  | success
  | timeout
  | failure
deriving DecidableEq, Repr

/-- State of one monitored run.  `reg` is `self.active_tasks`; `tracker` is
`self.progress_tracker`; `lastCb` is the loop-local `last_update` clock of
`_execute_with_monitoring` (relative to the start time); `events` is the
trace of callback/raise events; `history` is a ghost trace recording every
assignment to the task's `status` field in program order, starting from the
dataclass default `"running"`; `outcome` is `none` while the registration
call is still running. -/
structure RunState where
  reg : List (String × SubagentTask)
  tracker : ProgressTracker
  lastCb : Int
  events : List Event
  history : List String
  outcome : Option Outcome
deriving DecidableEq, Repr

/-- `min(100, int((elapsed / task.timeout) * 100 * 2))` (monitor.py line
185) in exact integer arithmetic; every reachable call has `timeout > 0` and
`elapsed ≥ 0`, where truncation equals floor division. -/
def simulatedProgress (timeout elapsed : Int) : Int :=
  min 100 ((elapsed * 200) / timeout)

/-- One iteration of the `while True:` polling loop of
`Monitor._execute_with_monitoring` (monitor.py lines 177-198) on the loop's
iteration `k` (the body runs between 5-second sleeps, so `elapsed = 5 * k`),
together with the `spawn_with_monitoring` handling that runs synchronously
when the loop exits (lines 113-156): on `asyncio.TimeoutError`, status
`"timeout"`, error callback, re-raise as `TimeoutError`; on any other
exception (only the `ZeroDivisionError` from line 185 when `timeout == 0` is
possible here), status `"failed"`, error callback, raise `SubagentError`; on
return, status `"completed"`, progress 100, completion callback, normal
return.  In every exit case the `finally` block deletes the registry entry.
The cadence check `time.time() - last_update >= self.update_interval` (line
189) appears as one condition used in two places (event emission and clock
reset), exactly the two effects of the source's single `if`.  Note the loop
reads `task.timeout` but never reads `task.status`. -/
def loopBody (update_interval : Int) (id : String) (k : Nat) (s : RunState) : RunState :=
  if s.outcome.isSome then s
  else
    match lookupTask s.reg id with
    | none => s
    | some t =>
      if t.timeout < 5 * (k : Int) then
        { s with
          reg := removeTask (setTask s.reg id { t with status := "timeout" }) id,
          events := s.events ++ [Event.errorCb id "timeout", Event.raised id "timeout"],
          history := s.history ++ ["timeout"],
          outcome := some Outcome.timeout }
      else if t.timeout = 0 then
        { s with
          reg := removeTask (setTask s.reg id { t with status := "failed" }) id,
          events := s.events ++ [Event.errorCb id "failure", Event.raised id "failure"],
          history := s.history ++ ["failed"],
          outcome := some Outcome.failure }
      else
        if 100 ≤ simulatedProgress t.timeout (5 * (k : Int)) then
          { s with
            reg := removeTask (setTask s.reg id
              { t with status := "completed", progress := 100,
                       last_update := 5 * (k : Int) }) id,
            events := s.events ++
              (if update_interval ≤ 5 * (k : Int) - s.lastCb then
                [Event.progressCb id (simulatedProgress t.timeout (5 * (k : Int)))]
              else []) ++ [Event.completeCb id, Event.returned id],
            history := s.history ++ ["completed"],
            lastCb := if update_interval ≤ 5 * (k : Int) - s.lastCb then 5 * (k : Int)
              else s.lastCb,
            outcome := some Outcome.success }
        else
          { s with
            reg := setTask s.reg id
              { t with progress := simulatedProgress t.timeout (5 * (k : Int)),
                       last_update := 5 * (k : Int) },
            events := s.events ++
              (if update_interval ≤ 5 * (k : Int) - s.lastCb then
                [Event.progressCb id (simulatedProgress t.timeout (5 * (k : Int)))]
              else []),
            lastCb := if update_interval ≤ 5 * (k : Int) - s.lastCb then 5 * (k : Int)
              else s.lastCb,
            outcome := none }

/-- An external `Monitor.kill_task` call applied to a run state, recording
the `task.status = "killed"` assignment (monitor.py line 261) in the ghost
history when the kill found the task. -/
def killStep (s : RunState) (id : String) : RunState :=
  if (Monitor.kill_task s.reg id).1 then
    { s with reg := (Monitor.kill_task s.reg id).2, history := s.history ++ ["killed"] }
  else s

/-- Run state immediately after `spawn_with_monitoring` has registered the
task (monitor.py lines 96-111): one registry entry with status `"running"`,
an untouched progress tracker, and the loop-local callback clock at the
start time. -/
def initialState (id : String) (timeout : Int) : RunState :=
  { reg := [(id, SubagentTask.create id "task" timeout [])],
    tracker := ⟨[]⟩, lastCb := 0, events := [], history := ["running"],
    outcome := none }

/-- The interleaved run: `run ui timeout id killAt n` executes the first `n`
iterations of the polling loop for one spawned task, applying an external
`kill_task` call during the sleep just before iteration `j` when
`killAt = some j`.  The 5-second sleep is the loop's only suspension point,
so these are exactly the reachable interleavings of one external cancel with
one task's polling loop under cooperative (asyncio) scheduling. -/
def run (update_interval timeout : Int) (id : String) (killAt : Option Nat) :
    Nat → RunState
  | 0 => initialState id timeout
  | n + 1 =>
    let s := run update_interval timeout id killAt n
    let s1 := if killAt = some n then killStep s id else s
    loopBody update_interval id n s1

/-- Number of progress-callback events in a trace. -/
def countProgressCb (evs : List Event) : Nat :=
  (evs.filter fun e =>
    match e with
    | Event.progressCb _ _ => true
    | _ => false).length

/-- Registry-shape invariant of a monitored run: while the registration call
has not finished, the registry holds exactly the one spawned task, with its
declared timeout and status `"running"` or `"killed"`; once the call has
finished, the `finally` cleanup has emptied the registry. -/
def RegistryInv (id : String) (tmo : Int) (s : RunState) : Prop :=
  (s.outcome = none → ∃ tk, s.reg = [(id, tk)] ∧ tk.timeout = tmo ∧
    (tk.status = "running" ∨ tk.status = "killed")) ∧
  (s.outcome ≠ none → s.reg = [])

/-- Rate of a store whose per-id list is empty is zero (the `len < 2` guard
fires before any indexing). -/
theorem get_progress_rate_short (tr : ProgressTracker) (id : String) (l : List Sample)
    (hl : lookupUpdates tr.updates id = some l) (hlen : l.length < 2) :
    tr.get_progress_rate id = 0 := by
  simp [ProgressTracker.get_progress_rate, hl, hlen]

/-- Evaluation of the witness store: two samples recorded for `"a"`. -/
theorem exampleTracker_updates : exampleTracker.updates = [("a", [⟨0, 0⟩, ⟨50, 300⟩])] := rfl

/-- Evaluation of the rate on the witness store: 50% gained over 5 minutes is
10 %/min. -/
theorem exampleTracker_rate : exampleTracker.get_progress_rate "a" = 10 := by
  have hl : lookupUpdates exampleTracker.updates "a" = some [⟨0, 0⟩, ⟨50, 300⟩] := rfl
  simp only [ProgressTracker.get_progress_rate, hl]
  norm_num [firstSample, lastSample]

/-- The witness store's rate is positive. -/
theorem exampleTracker_rate_pos : 0 < exampleTracker.get_progress_rate "a" := by
  rw [exampleTracker_rate]; norm_num

/-- Evaluation of the completion estimate on the witness store:
`300s + (100-50)/10 min = 600s`. -/
theorem exampleTracker_estimate : exampleTracker.estimate_completion "a" = some 600 := by
  have hl : lookupUpdates exampleTracker.updates "a" = some [⟨0, 0⟩, ⟨50, 300⟩] := rfl
  simp only [ProgressTracker.estimate_completion, hl, exampleTracker_rate]
  norm_num [lastSample]

/-- Claim C7: `get_progress_rate` returns 0 when fewer than two samples exist
for the id, returns 0 when the elapsed time between the first and last
recorded samples is exactly zero, and otherwise returns the percentage
difference between the last and first samples divided by the minutes between
them; in particular samples `(0%, t0)` and `(50%, t0 + 5min)` give 10 %/min. -/
theorem C7_rate_spec :
    (∀ (tr : ProgressTracker) (id : String),
        ((lookupUpdates tr.updates id).getD []).length < 2 →
        tr.get_progress_rate id = 0) ∧
    (∀ (tr : ProgressTracker) (id : String) (l : List Sample),
        lookupUpdates tr.updates id = some l →
        (lastSample l).timestamp = (firstSample l).timestamp →
        tr.get_progress_rate id = 0) ∧
    (∀ (tr : ProgressTracker) (id : String) (l : List Sample),
        lookupUpdates tr.updates id = some l →
        2 ≤ l.length →
        (lastSample l).timestamp ≠ (firstSample l).timestamp →
        tr.get_progress_rate id =
          (((lastSample l).percentage : ℚ) - ((firstSample l).percentage : ℚ)) /
            (((lastSample l).timestamp - (firstSample l).timestamp) / 60)) ∧
    (∀ t0 : ℚ,
        ProgressTracker.get_progress_rate ⟨[("a", [⟨0, t0⟩, ⟨50, t0 + 300⟩])]⟩ "a" = 10) := by
  refine ⟨?_, ?_, ?_, ?_⟩
  · intro tr id h
    rcases hl : lookupUpdates tr.updates id with _ | l
    · simp [ProgressTracker.get_progress_rate, hl]
    · rw [hl] at h
      exact get_progress_rate_short tr id l hl (by simpa using h)
  · intro tr id l hl heq
    by_cases hlen : l.length < 2
    · exact get_progress_rate_short tr id l hl hlen
    · simp [ProgressTracker.get_progress_rate, hl, hlen, heq]
  · intro tr id l hl hlen hne
    have h60 : ((lastSample l).timestamp - (firstSample l).timestamp) / 60 ≠ 0 := by
      rw [div_ne_zero_iff]
      exact ⟨sub_ne_zero.mpr hne, by norm_num⟩
    simp only [ProgressTracker.get_progress_rate, hl]
    rw [if_neg (by omega : ¬ l.length < 2), if_neg h60]
  · intro t0
    have hl : lookupUpdates [("a", [⟨0, t0⟩, ⟨50, t0 + 300⟩])] "a" =
        some [⟨0, t0⟩, ⟨50, t0 + 300⟩] := rfl
    simp only [ProgressTracker.get_progress_rate, hl]
    norm_num [firstSample, lastSample]

/-- C7 witness: on a store with no samples for `"b"` the first part of
`C7_rate_spec` applies and the rate evaluates to zero. -/
theorem C7_witness :
    ((lookupUpdates (ProgressTracker.mk []).updates "b").getD []).length < 2 ∧
    ProgressTracker.get_progress_rate ⟨[]⟩ "b" = 0 :=
  ⟨by decide, C7_rate_spec.1 ⟨[]⟩ "b" (by decide)⟩

/-- Claim C8: `estimate_completion` returns `none` exactly when no samples
exist for the id or the computed rate is non-positive; otherwise it returns
the last sample's timestamp plus `(100 - last.percentage) / rate` minutes. -/
theorem C8_estimate_spec :
    (∀ (tr : ProgressTracker) (id : String),
        tr.estimate_completion id = none ↔
          ((lookupUpdates tr.updates id).getD []) = [] ∨ tr.get_progress_rate id ≤ 0) ∧
    (∀ (tr : ProgressTracker) (id : String) (l : List Sample),
        lookupUpdates tr.updates id = some l →
        0 < tr.get_progress_rate id →
        tr.estimate_completion id =
          some ((lastSample l).timestamp +
            60 * ((100 - ((lastSample l).percentage : ℚ)) / tr.get_progress_rate id))) := by
  constructor
  · intro tr id
    rcases hl : lookupUpdates tr.updates id with _ | l
    · simp [ProgressTracker.estimate_completion, hl]
    · by_cases hr : tr.get_progress_rate id ≤ 0
      · simp [ProgressTracker.estimate_completion, hl, hr]
      · have hne : l ≠ [] := by
          intro hnil
          exact hr (le_of_eq (get_progress_rate_short tr id l hl (by simp [hnil])))
        simp [ProgressTracker.estimate_completion, hl, hr, hne]
  · intro tr id l hl hr
    simp only [ProgressTracker.estimate_completion, hl]
    rw [if_neg (not_le.mpr hr)]

/-- C8 witness: on the two-sample witness store the rate is positive and
`C8_estimate_spec` yields the last-sample formula. -/
theorem C8_witness :
    lookupUpdates exampleTracker.updates "a" = some [⟨0, 0⟩, ⟨50, 300⟩] ∧
    0 < exampleTracker.get_progress_rate "a" ∧
    exampleTracker.estimate_completion "a" =
      some ((lastSample [⟨0, 0⟩, ⟨50, 300⟩]).timestamp +
        60 * ((100 - ((lastSample [⟨0, 0⟩, ⟨50, 300⟩]).percentage : ℚ)) /
          exampleTracker.get_progress_rate "a")) :=
  ⟨rfl, exampleTracker_rate_pos,
    C8_estimate_spec.2 exampleTracker "a" [⟨0, 0⟩, ⟨50, 300⟩] rfl exampleTracker_rate_pos⟩

/-- Claim C10: whenever `estimate_completion` returns a timestamp and the most
recently appended sample's percentage is at most 100, the returned timestamp
is not earlier than that sample's timestamp. -/
theorem C10_estimate_lower_bound (tr : ProgressTracker) (id : String) (ts : ℚ)
    (hest : tr.estimate_completion id = some ts)
    (hpct : (lastSample ((lookupUpdates tr.updates id).getD [])).percentage ≤ 100) :
    (lastSample ((lookupUpdates tr.updates id).getD [])).timestamp ≤ ts := by
  rcases hl : lookupUpdates tr.updates id with _ | l
  · simp [ProgressTracker.estimate_completion, hl] at hest
  · rw [hl] at hpct
    simp only [Option.getD_some] at hpct ⊢
    by_cases hr : tr.get_progress_rate id ≤ 0
    · simp [ProgressTracker.estimate_completion, hl, hr] at hest
    · simp only [ProgressTracker.estimate_completion, hl, if_neg hr, Option.some.injEq] at hest
      have hrate : 0 < tr.get_progress_rate id := lt_of_not_le hr
      have hq : (0 : ℚ) ≤ 60 * ((100 - ((lastSample l).percentage : ℚ)) /
          tr.get_progress_rate id) := by
        have hnum : (0 : ℚ) ≤ 100 - ((lastSample l).percentage : ℚ) := by
          have : ((lastSample l).percentage : ℚ) ≤ 100 := by exact_mod_cast hpct
          linarith
        positivity
      rw [← hest]
      exact le_add_of_nonneg_right hq

/-- C10 witness: on the witness store the estimate is 600s, the last sample
is `(50%, 300s)`, and indeed `300 ≤ 600`. -/
theorem C10_witness :
    exampleTracker.estimate_completion "a" = some 600 ∧
    (lastSample ((lookupUpdates exampleTracker.updates "a").getD [])).percentage ≤ 100 ∧
    (lastSample ((lookupUpdates exampleTracker.updates "a").getD [])).timestamp ≤ 600 :=
  ⟨exampleTracker_estimate, by decide,
    C10_estimate_lower_bound exampleTracker "a" 600 exampleTracker_estimate (by decide)⟩

/-- The clamped percentage `max 0 (min 100 p)` is at most 100. -/
theorem clamp_le_hundred (p : Int) : max 0 (min 100 p) ≤ 100 :=
  max_le (by norm_num) (min_le_left _ _)

/-- The clamped percentage `max 0 (min 100 p)` is nonnegative. -/
theorem clamp_nonneg (p : Int) : 0 ≤ max 0 (min 100 p) :=
  le_max_left _ _

/-- `rne` returns the floor or the floor plus one. -/
theorem rne_cases (m : ℚ) : rne m = ⌊m⌋ ∨ rne m = ⌊m⌋ + 1 := by
  unfold rne
  split_ifs <;> simp

/-- Round-to-nearest of an integer is that integer. -/
theorem rne_intCast (k : ℤ) : rne (k : ℚ) = k := by
  unfold rne
  rw [Int.floor_intCast]
  norm_num

/-- Round-to-nearest-even never rounds past an integer bound. -/
theorem rne_le_int (m : ℚ) (K : ℤ) (h : m ≤ K) : rne m ≤ K := by
  by_cases hfrac : m - ⌊m⌋ < 1 / 2
  · rw [rne, if_pos hfrac]
    have := Int.floor_le_floor h
    rwa [Int.floor_intCast] at this
  · have hlt : (⌊m⌋ : ℚ) < m := by
      have h2 : (1:ℚ) / 2 ≤ m - ⌊m⌋ := not_lt.mp hfrac
      linarith
    have hmK : ⌊m⌋ < K := by
      exact_mod_cast lt_of_lt_of_le hlt h
    rw [rne, if_neg hfrac]
    split_ifs <;> omega

/-- Round-to-nearest is nonnegative on nonnegative input. -/
theorem rne_nonneg (m : ℚ) (h : 0 ≤ m) : 0 ≤ rne m := by
  have h0 : (0:ℤ) ≤ ⌊m⌋ := Int.floor_nonneg.mpr h
  rcases rne_cases m with hc | hc <;> omega

/-- Evaluation of `rne` when the fractional part is below one half. -/
theorem rne_eval_down (m : ℚ) (f : ℤ) (h1 : (f:ℚ) ≤ m) (h2 : m - f < 1 / 2) :
    rne m = f := by
  have hf : ⌊m⌋ = f := by
    rw [Int.floor_eq_iff]
    exact ⟨h1, by linarith⟩
  rw [rne, hf, if_pos h2]

/-- Evaluation of `rne` when the fractional part is above one half. -/
theorem rne_eval_up (m : ℚ) (f : ℤ) (h1 : (f:ℚ) ≤ m) (h2 : m - f < 1)
    (h3 : 1 / 2 < m - f) : rne m = f + 1 := by
  have hf : ⌊m⌋ = f := by
    rw [Int.floor_eq_iff]
    exact ⟨h1, by linarith⟩
  rw [rne, hf, if_neg (by linarith), if_pos (by linarith)]

/-- Uniqueness of the binade: if `2^n ≤ r < 2^(n+1)` then `Int.log 2 r = n`. -/
theorem int_log_eq (r : ℚ) (n : ℤ) (h1 : (2:ℚ) ^ n ≤ r) (h2 : r < (2:ℚ) ^ (n + 1)) :
    Int.log 2 r = n := by
  have hb : ((2:ℕ):ℚ) = (2:ℚ) := by norm_num
  have hr : 0 < r := lt_of_lt_of_le (by positivity) h1
  have hle : n ≤ Int.log 2 r := by
    rw [← Int.zpow_le_iff_le_log (by norm_num) hr, hb]
    exact h1
  have hlt : Int.log 2 r < n + 1 := by
    rw [← Int.lt_zpow_iff_log_lt (by norm_num) hr, hb]
    exact h2
  omega

/-- The binade bound in the useful direction: `r < 2^n` gives `log 2 r < n`. -/
theorem int_log_lt (r : ℚ) (n : ℤ) (hr : 0 < r) (h : r < (2:ℚ) ^ n) :
    Int.log 2 r < n := by
  have hb : ((2:ℕ):ℚ) = (2:ℚ) := by norm_num
  rw [← Int.lt_zpow_iff_log_lt (by norm_num) hr, hb]
  exact h

/-- Closed-form evaluation of `fl64` on a positive value with known binade
and known rounded significand. -/
theorem fl64_eval (x : ℚ) (n K : ℤ) (hx : 0 < x)
    (h1 : (2:ℚ) ^ n ≤ x) (h2 : x < (2:ℚ) ^ (n + 1))
    (hK : rne (x * 2 ^ (52 - n)) = K) :
    fl64 x = (K : ℚ) * 2 ^ (n - 52) := by
  rw [fl64, if_pos hx, fl64Pos, int_log_eq x n h1 h2, hK]

/-- `fl64` of zero is zero. -/
theorem fl64_zero : fl64 0 = 0 := by
  simp [fl64]

/-- `fl64` is nonnegative on nonnegative input. -/
theorem fl64_nonneg (x : ℚ) (h : 0 ≤ x) : 0 ≤ fl64 x := by
  rw [fl64]
  split_ifs with h1 h2
  · have hr := rne_nonneg (x * 2 ^ (52 - Int.log 2 x)) (by positivity)
    rw [fl64Pos]
    have hc : (0:ℚ) ≤ (rne (x * 2 ^ (52 - Int.log 2 x)) : ℚ) := by exact_mod_cast hr
    positivity
  · linarith
  · exact le_refl 0

/-- Rounding never overshoots a bound that is an integer multiple of the
binade grid: `fl64 y ≤ z` whenever `0 < y ≤ z` and `z * 2^(52 - log2 y)` is
an integer. -/
theorem fl64_le_of_le (y z : ℚ) (hy : 0 < y) (K : ℤ)
    (hK : (K : ℚ) = z * 2 ^ ((52:ℤ) - Int.log 2 y)) (hyz : y ≤ z) :
    fl64 y ≤ z := by
  rw [fl64, if_pos hy, fl64Pos]
  have hpow : (0:ℚ) < 2 ^ ((52:ℤ) - Int.log 2 y) := by positivity
  have hm : y * 2 ^ ((52:ℤ) - Int.log 2 y) ≤ (K : ℚ) := by
    rw [hK]
    exact mul_le_mul_of_nonneg_right hyz (le_of_lt hpow)
  have hr : rne (y * 2 ^ ((52:ℤ) - Int.log 2 y)) ≤ K := rne_le_int _ _ hm
  have hpos2 : (0:ℚ) < 2 ^ (Int.log 2 y - (52:ℤ)) := by positivity
  calc (rne (y * 2 ^ ((52:ℤ) - Int.log 2 y)) : ℚ) * 2 ^ (Int.log 2 y - 52)
      ≤ (K : ℚ) * 2 ^ (Int.log 2 y - 52) :=
        mul_le_mul_of_nonneg_right (by exact_mod_cast hr) (le_of_lt hpos2)
    _ = z * 2 ^ ((52:ℤ) - Int.log 2 y) * 2 ^ (Int.log 2 y - 52) := by rw [hK]
    _ = z := by
        rw [mul_assoc, ← zpow_add₀ (by norm_num : (2:ℚ) ≠ 0)]
        have he : (52:ℤ) - Int.log 2 y + (Int.log 2 y - 52) = 0 := by ring
        rw [he, zpow_zero, mul_one]

/-- Every natural number below `2^53` is exactly representable: `fl64` fixes
it. -/
theorem fl64_natCast (w : ℕ) (hw : w < 2 ^ 53) : fl64 (w : ℚ) = w := by
  rcases Nat.eq_zero_or_pos w with h0 | hpos
  · subst h0
    simpa using fl64_zero
  · have hx : (0:ℚ) < w := by exact_mod_cast hpos
    have hwq : (w:ℚ) < (2:ℚ) ^ (53:ℤ) := by
      have hq : (w:ℚ) < ((2 ^ 53 : ℕ) : ℚ) := by exact_mod_cast hw
      calc (w:ℚ) < ((2 ^ 53 : ℕ) : ℚ) := hq
        _ = (2:ℚ) ^ (53:ℤ) := by norm_num
    have hub : Int.log 2 (w:ℚ) < 53 := int_log_lt _ _ hx hwq
    have hnn : (0:ℤ) ≤ 52 - Int.log 2 (w:ℚ) := by omega
    have ht : ((2:ℚ)) ^ ((52 - Int.log 2 (w:ℚ)).toNat) = (2:ℚ) ^ ((52:ℤ) - Int.log 2 (w:ℚ)) := by
      rw [← zpow_natCast (2:ℚ) (52 - Int.log 2 (w:ℚ)).toNat, Int.toNat_of_nonneg hnn]
    have hK : rne ((w:ℚ) * 2 ^ ((52:ℤ) - Int.log 2 (w:ℚ)))
        = (w : ℤ) * 2 ^ (52 - Int.log 2 (w:ℚ)).toNat := by
      have harg : (w:ℚ) * 2 ^ ((52:ℤ) - Int.log 2 (w:ℚ))
          = (((w : ℤ) * 2 ^ (52 - Int.log 2 (w:ℚ)).toNat : ℤ) : ℚ) := by
        push_cast
        rw [ht]
      rw [harg, rne_intCast]
    rw [fl64, if_pos hx, fl64Pos, hK]
    push_cast
    rw [ht, mul_assoc, ← zpow_add₀ (by norm_num : (2:ℚ) ≠ 0)]
    have he : (52:ℤ) - Int.log 2 (w:ℚ) + (Int.log 2 (w:ℚ) - 52) = 0 := by ring
    rw [he, zpow_zero, mul_one]

/-- `fl64` of a value in `[0, 1]` stays at most `1`. -/
theorem fl64_le_one (a : ℚ) (h0 : 0 ≤ a) (h1 : a ≤ 1) : fl64 a ≤ 1 := by
  rcases eq_or_lt_of_le h0 with hz | hpos
  · rw [← hz, fl64_zero]
    norm_num
  · have hL : Int.log 2 a ≤ 0 := by
      have := int_log_lt a 1 hpos (by
        calc a ≤ 1 := h1
          _ < (2:ℚ) ^ (1:ℤ) := by norm_num)
      omega
    have hnn : (0:ℤ) ≤ 52 - Int.log 2 a := by omega
    apply fl64_le_of_le a 1 hpos (2 ^ (52 - Int.log 2 a).toNat) ?_ h1
    rw [one_mul]
    push_cast
    rw [← zpow_natCast (2:ℚ) (52 - Int.log 2 a).toNat, Int.toNat_of_nonneg hnn]

/-- The float-computed filled-cell count of the renderer never exceeds the
width, for widths below `2^53` (where the width converts to a double
exactly). -/
theorem floatFilled_le (p : Int) (w : Nat) (hw : w < 2 ^ 53) :
    (⌊fl64 (fl64 (((max 0 (min 100 p) : Int) : ℚ) / 100) * fl64 (w : ℚ))⌋).toNat ≤ w := by
  have ha0 : (0:ℚ) ≤ ((max 0 (min 100 p) : Int) : ℚ) / 100 := by
    apply div_nonneg _ (by norm_num)
    exact_mod_cast clamp_nonneg p
  have ha1 : ((max 0 (min 100 p) : Int) : ℚ) / 100 ≤ 1 := by
    rw [div_le_one (by norm_num)]
    exact_mod_cast clamp_le_hundred p
  rw [fl64_natCast w hw]
  have hfa0 : 0 ≤ fl64 (((max 0 (min 100 p) : Int) : ℚ) / 100) := fl64_nonneg _ ha0
  have hfa1 : fl64 (((max 0 (min 100 p) : Int) : ℚ) / 100) ≤ 1 := fl64_le_one _ ha0 ha1
  have hy0 : (0:ℚ) ≤ fl64 (((max 0 (min 100 p) : Int) : ℚ) / 100) * (w:ℚ) :=
    mul_nonneg hfa0 (by positivity)
  have hyw : fl64 (((max 0 (min 100 p) : Int) : ℚ) / 100) * (w:ℚ) ≤ (w:ℚ) := by
    calc fl64 (((max 0 (min 100 p) : Int) : ℚ) / 100) * (w:ℚ)
        ≤ 1 * (w:ℚ) := mul_le_mul_of_nonneg_right hfa1 (by positivity)
      _ = (w:ℚ) := one_mul _
  rcases eq_or_lt_of_le hy0 with hz | hpos
  · rw [← hz, fl64_zero]
    simp
  · have hwq : (w:ℚ) < (2:ℚ) ^ (53:ℤ) := by
      have hq : (w:ℚ) < ((2 ^ 53 : ℕ) : ℚ) := by exact_mod_cast hw
      calc (w:ℚ) < ((2 ^ 53 : ℕ) : ℚ) := hq
        _ = (2:ℚ) ^ (53:ℤ) := by norm_num
    have hL : Int.log 2 (fl64 (((max 0 (min 100 p) : Int) : ℚ) / 100) * (w:ℚ)) ≤ 52 := by
      have := int_log_lt _ 53 hpos (lt_of_le_of_lt hyw hwq)
      omega
    have hnn : (0:ℤ) ≤ 52 - Int.log 2 (fl64 (((max 0 (min 100 p) : Int) : ℚ) / 100) * (w:ℚ)) := by
      omega
    have hfl : fl64 (fl64 (((max 0 (min 100 p) : Int) : ℚ) / 100) * (w:ℚ)) ≤ (w:ℚ) := by
      apply fl64_le_of_le _ _ hpos
        ((w:ℤ) * 2 ^ ((52 - Int.log 2 (fl64 (((max 0 (min 100 p) : Int) : ℚ) / 100) * (w:ℚ))).toNat)) ?_ hyw
      have h2c : ((2:ℤ):ℚ) = (2:ℚ) := by norm_num
      have hwc : (((w:ℕ):ℤ):ℚ) = ((w:ℕ):ℚ) := by norm_num
      rw [Int.cast_mul, Int.cast_pow, h2c, hwc, ← zpow_natCast (2:ℚ), Int.toNat_of_nonneg hnn]
    have hfloor : ⌊fl64 (fl64 (((max 0 (min 100 p) : Int) : ℚ) / 100) * (w:ℚ))⌋ ≤ (w:ℤ) := by
      have := Int.floor_le_floor hfl
      rwa [Int.floor_natCast] at this
    omega

/-- The double nearest `29/100`, namely `5224175567749775 * 2^-54`, lies just
below the exact value. -/
theorem fl64_of_29_percent :
    fl64 ((29:ℚ) / 100) = 5224175567749775 * (2:ℚ) ^ ((-2:ℤ) - 52) :=
  fl64_eval ((29:ℚ) / 100) (-2) 5224175567749775 (by norm_num) (by norm_num) (by norm_num)
    (rne_eval_down _ _ (by norm_num) (by norm_num))

/-- The width 100 converts to a double exactly. -/
theorem fl64_of_100 : fl64 ((100:ℕ):ℚ) = ((100:ℕ):ℚ) := fl64_natCast 100 (by norm_num)

/-- The double product `double(29/100) * 100` rounds to
`8162774324609023 * 2^-48 = 28.999999999999996…`, strictly below 29. -/
theorem fl64_prod_29 :
    fl64 (fl64 ((29:ℚ) / 100) * fl64 ((100:ℕ):ℚ)) =
      8162774324609023 * (2:ℚ) ^ ((4:ℤ) - 52) := by
  rw [fl64_of_29_percent, fl64_of_100]
  exact fl64_eval _ 4 8162774324609023 (by norm_num) (by norm_num) (by norm_num)
    (rne_eval_down _ _ (by norm_num) (by norm_num))

/-- Truncating the float value of `29/100 * 100` yields 28, not 29. -/
theorem floor_prod_29 : ⌊(8162774324609023:ℚ) * (2:ℚ) ^ ((4:ℤ) - 52)⌋ = 28 := by
  rw [Int.floor_eq_iff]
  constructor <;> norm_num

/-- The double nearest `30/100`. -/
theorem fl64_of_30_percent :
    fl64 ((30:ℚ) / 100) = 5404319552844595 * (2:ℚ) ^ ((-2:ℤ) - 52) :=
  fl64_eval ((30:ℚ) / 100) (-2) 5404319552844595 (by norm_num) (by norm_num) (by norm_num)
    (rne_eval_down _ _ (by norm_num) (by norm_num))

/-- The width 10 converts to a double exactly. -/
theorem fl64_of_10 : fl64 ((10:ℕ):ℚ) = ((10:ℕ):ℚ) := fl64_natCast 10 (by norm_num)

/-- The double product `double(30/100) * 10` rounds back up to exactly 3
(the tie-free nearest double of `3 - 2^-53` is `3.0`). -/
theorem fl64_prod_30 : fl64 (fl64 ((30:ℚ) / 100) * fl64 ((10:ℕ):ℚ)) = 3 := by
  rw [fl64_of_30_percent, fl64_of_10]
  have h := fl64_eval (5404319552844595 * (2:ℚ) ^ ((-2:ℤ) - 52) * ((10:ℕ):ℚ)) 1
    6755399441055744 (by norm_num) (by norm_num) (by norm_num)
    (rne_eval_up _ 6755399441055743 (by norm_num) (by norm_num) (by norm_num))
  rw [h]
  norm_num

/-- Claim C9 counterexample: at percentage 29 and width 100 the program
renders 28 filled cells — `int(29/100 * 100)` evaluates in doubles to
`int(28.999999999999996) = 28` — while the exact floor `⌊29/100 * 100⌋` the
claim asserts is 29. -/
theorem C9_counterexample :
    (ProgressBar.init 29 100).render.data.count fillChar = 28 ∧
    ⌊(((max 0 (min 100 (29:Int)) : Int) : ℚ) / 100 * ((100:ℕ) : ℚ))⌋₊ = 29 := by
  constructor
  · have hp : (((ProgressBar.init 29 100).percentage : Int) : ℚ) = 29 := by
      have h : (ProgressBar.init 29 100).percentage = 29 := by decide
      rw [h]; norm_num
    have hwd : (ProgressBar.init 29 100).width = 100 := rfl
    simp only [ProgressBar.render]
    rw [hp, hwd, fl64_prod_29, floor_prod_29]
    decide
  · have h : (max 0 (min 100 (29:Int))) = 29 := by decide
    rw [h]
    norm_num

/-- Claim C9 (amended): rendering first clamps the percentage to `[0,100]`
and then produces exactly `int(clamped/100 * width)` — evaluated in IEEE-754
binary64 arithmetic, which at percentage 29 and width 100 yields 28 filled
cells, one below the exact floor — filled cells followed by
`width - filled` empty cells; for every width below `2^53` the total length
is exactly the width; the width-10 instances hold as stated: 30% gives 3
filled and 7 empty cells, 0% gives all empty, 100% gives all filled. -/
theorem C9_render_spec :
    (∀ (p : Int) (w : Nat),
        (ProgressBar.init p w).render.data =
          List.replicate
            ((⌊fl64 (fl64 (((max 0 (min 100 p) : Int) : ℚ) / 100) * fl64 ((w:ℕ) : ℚ))⌋).toNat)
            fillChar ++
          List.replicate
            (w - (⌊fl64 (fl64 (((max 0 (min 100 p) : Int) : ℚ) / 100) * fl64 ((w:ℕ) : ℚ))⌋).toNat)
            emptyChar) ∧
    (∀ (p : Int) (w : Nat), w < 2 ^ 53 → (ProgressBar.init p w).render.data.length = w) ∧
    (ProgressBar.init 30 10).render = "▰▰▰▱▱▱▱▱▱▱" ∧
    (ProgressBar.init 0 10).render = "▱▱▱▱▱▱▱▱▱▱" ∧
    (ProgressBar.init 100 10).render = "▰▰▰▰▰▰▰▰▰▰" := by
  refine ⟨?_, ?_, ?_, ?_, ?_⟩
  · intro p w
    rfl
  · intro p w hw
    have hle := floatFilled_le p w hw
    simp only [ProgressBar.render, ProgressBar.init, String.data,
      List.length_append, List.length_replicate]
    omega
  · have hp : (((ProgressBar.init 30 10).percentage : Int) : ℚ) = 30 := by
      have h : (ProgressBar.init 30 10).percentage = 30 := by decide
      rw [h]; norm_num
    have hwd : (ProgressBar.init 30 10).width = 10 := rfl
    simp only [ProgressBar.render]
    rw [hp, hwd, fl64_prod_30]
    decide
  · have hp : (((ProgressBar.init 0 10).percentage : Int) : ℚ) = 0 := by
      have h : (ProgressBar.init 0 10).percentage = 0 := by decide
      rw [h]; norm_num
    have hwd : (ProgressBar.init 0 10).width = 10 := rfl
    simp only [ProgressBar.render]
    rw [hp, hwd, show (0:ℚ)/100 = 0 by norm_num, fl64_zero, zero_mul, fl64_zero]
    decide
  · have hp : (((ProgressBar.init 100 10).percentage : Int) : ℚ) = 100 := by
      have h : (ProgressBar.init 100 10).percentage = 100 := by decide
      rw [h]; norm_num
    have hwd : (ProgressBar.init 100 10).width = 10 := rfl
    simp only [ProgressBar.render]
    rw [hp, hwd, show (100:ℚ)/100 = ((1:ℕ):ℚ) by norm_num,
      fl64_natCast 1 (by norm_num), fl64_of_10,
      show ((1:ℕ):ℚ) * ((10:ℕ):ℚ) = ((10:ℕ):ℚ) by norm_num, fl64_of_10]
    decide

/-- C9 witness: width 10 is far below `2^53`, and the rendered 30% bar has
exactly 10 cells. -/
theorem C9_witness :
    (10:ℕ) < 2 ^ 53 ∧ (ProgressBar.init 30 10).render.data.length = 10 :=
  ⟨by decide, C9_render_spec.2.1 30 10 (by decide)⟩

/-- Looking up the only registry entry. -/
theorem lookupTask_singleton (id : String) (t : SubagentTask) :
    lookupTask [(id, t)] id = some t := by
  simp [lookupTask]

/-- Updating the only registry entry. -/
theorem setTask_singleton (id : String) (t t2 : SubagentTask) :
    setTask [(id, t)] id t2 = [(id, t2)] := by
  simp [setTask]

/-- Deleting the only registry entry. -/
theorem removeTask_singleton (id : String) (t : SubagentTask) :
    removeTask [(id, t)] id = [] := by
  simp [removeTask]

/-- After a successful `setTask`, the entry lookup returns the new record. -/
theorem lookup_setTask (reg : List (String × SubagentTask)) (id : String)
    (t2 : SubagentTask) (h : (lookupTask reg id).isSome) :
    lookupTask (setTask reg id t2) id = some t2 := by
  induction reg with
  | nil => simp [lookupTask] at h
  | cons p rest ih =>
    obtain ⟨i, t⟩ := p
    by_cases hp : i == id
    · simp [lookupTask, setTask, hp]
    · simp only [lookupTask, setTask, hp, Bool.false_eq_true, if_false] at h ⊢
      exact ih h

/-- A finished run's step is a no-op: the loop body only executes while the
registration call has not returned. -/
theorem loopBody_of_outcome_some (ui : Int) (id : String) (k : Nat) (s : RunState)
    (h : s.outcome.isSome) : loopBody ui id k s = s := by
  simp [loopBody, h]

/-- Evaluation of the loop body on the deadline-exceeded branch (monitor.py
lines 181-182 and 133-141): status `"timeout"`, error callback, raise,
registry entry deleted. -/
theorem loopBody_timeout_eq (ui : Int) (id : String) (k : Nat) (s : RunState)
    (t : SubagentTask) (hreg : s.reg = [(id, t)]) (hout : s.outcome = none)
    (hex : t.timeout < 5 * (k : Int)) :
    loopBody ui id k s =
      { s with
        reg := [],
        events := s.events ++ [Event.errorCb id "timeout", Event.raised id "timeout"],
        history := s.history ++ ["timeout"],
        outcome := some Outcome.timeout } := by
  simp [loopBody, hout, hreg, lookupTask_singleton, hex, setTask_singleton,
    removeTask_singleton]

/-- Evaluation of the loop body on the `timeout == 0` branch: the progress
expression raises `ZeroDivisionError`, handled by the generic `except` branch
(monitor.py lines 143-151). -/
theorem loopBody_zerodiv_eq (ui : Int) (id : String) (k : Nat) (s : RunState)
    (t : SubagentTask) (hreg : s.reg = [(id, t)]) (hout : s.outcome = none)
    (hex : ¬ t.timeout < 5 * (k : Int)) (h0 : t.timeout = 0) :
    loopBody ui id k s =
      { s with
        reg := [],
        events := s.events ++ [Event.errorCb id "failure", Event.raised id "failure"],
        history := s.history ++ ["failed"],
        outcome := some Outcome.failure } := by
  simp [loopBody, hout, hreg, lookupTask_singleton, hex, h0, setTask_singleton,
    removeTask_singleton]
  omega

/-- Evaluation of the loop body on the completion branch (monitor.py lines
193-195 and 122-131). -/
theorem loopBody_complete_eq (ui : Int) (id : String) (k : Nat) (s : RunState)
    (t : SubagentTask) (hreg : s.reg = [(id, t)]) (hout : s.outcome = none)
    (hex : ¬ t.timeout < 5 * (k : Int)) (h0 : ¬ t.timeout = 0)
    (hcomp : 100 ≤ simulatedProgress t.timeout (5 * (k : Int))) :
    loopBody ui id k s =
      { s with
        reg := [],
        events := s.events ++
          (if ui ≤ 5 * (k : Int) - s.lastCb then
            [Event.progressCb id (simulatedProgress t.timeout (5 * (k : Int)))]
          else []) ++ [Event.completeCb id, Event.returned id],
        history := s.history ++ ["completed"],
        lastCb := if ui ≤ 5 * (k : Int) - s.lastCb then 5 * (k : Int) else s.lastCb,
        outcome := some Outcome.success } := by
  simp [loopBody, hout, hreg, lookupTask_singleton, hex, h0, hcomp,
    setTask_singleton, removeTask_singleton]

/-- Evaluation of the loop body on the keep-polling branch (monitor.py lines
184-191 and 197-198): progress and last-update written, cadence callback
possibly emitted, loop continues. -/
theorem loopBody_continue_eq (ui : Int) (id : String) (k : Nat) (s : RunState)
    (t : SubagentTask) (hreg : s.reg = [(id, t)]) (hout : s.outcome = none)
    (hex : ¬ t.timeout < 5 * (k : Int)) (h0 : ¬ t.timeout = 0)
    (hcomp : ¬ 100 ≤ simulatedProgress t.timeout (5 * (k : Int))) :
    loopBody ui id k s =
      { s with
        reg := [(id, { t with
                       progress := simulatedProgress t.timeout (5 * (k : Int)),
                       last_update := 5 * (k : Int) })],
        events := s.events ++
          (if ui ≤ 5 * (k : Int) - s.lastCb then
            [Event.progressCb id (simulatedProgress t.timeout (5 * (k : Int)))]
          else []),
        lastCb := if ui ≤ 5 * (k : Int) - s.lastCb then 5 * (k : Int) else s.lastCb,
        outcome := none } := by
  simp [loopBody, hout, hreg, lookupTask_singleton, hex, h0, hcomp, setTask_singleton]

/-- The loop body preserves the registry-shape invariant. -/
theorem registryInv_loopBody (ui : Int) (id : String) (k : Nat) (s : RunState)
    (tmo : Int) (h : RegistryInv id tmo s) : RegistryInv id tmo (loopBody ui id k s) := by
  rcases h with ⟨h1, h2⟩
  cases hout : s.outcome with
  | some o =>
    rw [loopBody_of_outcome_some ui id k s (by simp [hout])]
    exact ⟨h1, h2⟩
  | none =>
    obtain ⟨tk, hreg, htmo, hst⟩ := h1 hout
    by_cases hex : tk.timeout < 5 * (k : Int)
    · rw [loopBody_timeout_eq ui id k s tk hreg hout hex]
      exact ⟨fun hc => by simp at hc, fun _ => rfl⟩
    · by_cases h0 : tk.timeout = 0
      · rw [loopBody_zerodiv_eq ui id k s tk hreg hout hex h0]
        exact ⟨fun hc => by simp at hc, fun _ => rfl⟩
      · by_cases hcomp : 100 ≤ simulatedProgress tk.timeout (5 * (k : Int))
        · rw [loopBody_complete_eq ui id k s tk hreg hout hex h0 hcomp]
          exact ⟨fun hc => by simp at hc, fun _ => rfl⟩
        · rw [loopBody_continue_eq ui id k s tk hreg hout hex h0 hcomp]
          refine ⟨fun _ => ⟨_, rfl, htmo, hst⟩, fun hc => ?_⟩
          simp at hc

/-- An external kill preserves the registry-shape invariant (it can only turn
the status of the still-registered task to `"killed"`). -/
theorem registryInv_killStep (id : String) (tmo : Int) (s : RunState)
    (h : RegistryInv id tmo s) : RegistryInv id tmo (killStep s id) := by
  rcases h with ⟨h1, h2⟩
  cases hout : s.outcome with
  | some o =>
    have hreg : s.reg = [] := h2 (by simp [hout])
    have hid : killStep s id = s := by
      simp [killStep, Monitor.kill_task, hreg, lookupTask]
    rw [hid]
    exact ⟨h1, h2⟩
  | none =>
    obtain ⟨tk, hreg, htmo, hst⟩ := h1 hout
    have hkill : killStep s id =
        { s with
          reg := [(id, { tk with status := "killed" })],
          history := s.history ++ ["killed"] } := by
      simp [killStep, Monitor.kill_task, hreg, lookupTask_singleton, setTask_singleton]
    rw [hkill]
    refine ⟨fun _ => ⟨_, rfl, htmo, Or.inr rfl⟩, fun hc => ?_⟩
    simp [hout] at hc

/-- Every reachable state of a monitored run satisfies the registry-shape
invariant. -/
theorem run_registry_inv (ui tmo : Int) (id : String) (ka : Option Nat) (n : Nat) :
    RegistryInv id tmo (run ui tmo id ka n) := by
  induction n with
  | zero =>
    exact ⟨fun _ => ⟨_, rfl, rfl, Or.inl rfl⟩, fun h => absurd rfl h⟩
  | succ n ih =>
    rw [run]
    split_ifs with hka
    · exact registryInv_loopBody ui id n _ tmo (registryInv_killStep id tmo _ ih)
    · exact registryInv_loopBody ui id n _ tmo ih

/-- The loop body never touches the Monitor's `progress_tracker`. -/
theorem loopBody_tracker (ui : Int) (id : String) (k : Nat) (s : RunState) :
    (loopBody ui id k s).tracker = s.tracker := by
  unfold loopBody
  split
  · rfl
  · split
    · rfl
    · split_ifs <;> rfl

/-- An external kill never touches the Monitor's `progress_tracker`. -/
theorem killStep_tracker (s : RunState) (id : String) :
    (killStep s id).tracker = s.tracker := by
  unfold killStep
  split <;> rfl

/-- Claim C1 exhibit (the poll loop does not observe cancellation): with
`update_interval = 5` and a 100-second timeout, an external `kill_task`
during the first sleep sets status `"killed"`, yet the loop — which never
reads `task.status` — keeps performing deadline checks and progress writes,
emits nine further progress callbacks after the one already due, and finally
reaches the completed outcome instead of stopping within one poll tick. -/
theorem C1_cancel_not_observed :
    (run 5 100 "a" (some 1) 2).history = ["running", "killed"] ∧
    (run 5 100 "a" (some 1) 2).outcome = none ∧
    countProgressCb (run 5 100 "a" (some 1) 2).events <
      countProgressCb (run 5 100 "a" (some 1) 11).events ∧
    (run 5 100 "a" (some 1) 11).outcome = some Outcome.success ∧
    (run 5 100 "a" (some 1) 11).history = ["running", "killed", "completed"] :=
  ⟨by decide, by decide, by decide, by decide, by decide⟩

/-- Claim C2 exhibit (terminal status is not sticky): with a 5-second
timeout, an external `kill_task` during the first sleep sets the terminal
status `"killed"`, and the next loop iteration completes the task, so
`spawn_with_monitoring` assigns `status = "completed"` over it: the recorded
status assignments are running → killed → completed. -/
theorem C2_terminal_overwritten :
    (run 90 5 "a" (some 1) 2).history = ["running", "killed", "completed"] ∧
    (run 90 5 "a" (some 1) 2).outcome = some Outcome.success :=
  ⟨by decide, by decide⟩

/-- Claim C3 exhibit (the sample store is never written): the Monitor's
`progress_tracker` is created but the polling loop never calls `add_update`,
so the store holds no samples after any number of poll cycles — while
`task.progress` and `task.last_update` are indeed updated each cycle (after
three 5-second cycles against a 100-second timeout the task is at 20% with
`last_update = 10`). -/
theorem C3_store_never_written :
    (∀ (ui tmo : Int) (id : String) (ka : Option Nat) (n : Nat),
      (run ui tmo id ka n).tracker.updates = []) ∧
    (lookupTask (run 5 100 "a" none 3).reg "a").map SubagentTask.last_update = some 10 ∧
    (lookupTask (run 5 100 "a" none 3).reg "a").map SubagentTask.progress = some 20 := by
  refine ⟨?_, by decide, by decide⟩
  intro ui tmo id ka n
  induction n with
  | zero => rfl
  | succ n ih =>
    simp only [run]
    rw [loopBody_tracker]
    by_cases hka : ka = some n
    · rw [if_pos hka, killStep_tracker]
      exact ih
    · rw [if_neg hka]
      exact ih

/-- Claim C4 counterexample: after cancelling a spawned task once (its status
becomes `"killed"` but the record stays registered), a second `kill_task`
call on the same, already-terminal task returns `True` — not the claimed
`False`. -/
theorem C4_counterexample :
    (lookupTask ((Monitor.kill_task (run 90 100 "a" none 1).reg "a").2) "a").map
        SubagentTask.status = some "killed" ∧
    (Monitor.kill_task ((Monitor.kill_task (run 90 100 "a" none 1).reg "a").2) "a").1
      = true :=
  ⟨by decide, by decide⟩

/-- Claim C4 (amended): `kill_task` returns `True` iff the task id is present
in the active registry, in which case it sets that task's status to
`"killed"` regardless of the previous status — so cancelling a
still-registered, already-killed task also returns `True`; on an unknown id
it returns `False` and leaves the registry unchanged. -/
theorem C4_kill_amended (reg : List (String × SubagentTask)) (id : String) :
    ((Monitor.kill_task reg id).1 = true ↔ (lookupTask reg id).isSome = true) ∧
    (lookupTask reg id = none → Monitor.kill_task reg id = (false, reg)) ∧
    (∀ t, lookupTask reg id = some t →
      Monitor.kill_task reg id = (true, setTask reg id { t with status := "killed" }) ∧
      lookupTask (Monitor.kill_task reg id).2 id = some { t with status := "killed" }) := by
  refine ⟨?_, ?_, ?_⟩
  · cases hl : lookupTask reg id <;> simp [Monitor.kill_task, hl]
  · intro hl
    simp [Monitor.kill_task, hl]
  · intro t hl
    refine ⟨by simp [Monitor.kill_task, hl], ?_⟩
    have : Monitor.kill_task reg id = (true, setTask reg id { t with status := "killed" }) := by
      simp [Monitor.kill_task, hl]
    rw [this]
    exact lookup_setTask reg id _ (by simp [hl])

/-- C4 witness: on the empty registry `kill_task` finds nothing, changes
nothing, and returns `False`. -/
theorem C4_witness :
    lookupTask [] "a" = none ∧ Monitor.kill_task [] "a" = (false, []) :=
  ⟨rfl, (C4_kill_amended [] "a").2.1 rfl⟩

/-- Claim C5: when the elapsed time exceeds the declared timeout while the
registration call is still running (progress has not reached 100), the next
poll iteration transitions the task to status `"timeout"`, invokes the error
callback with a timeout-kind error, raises the timeout failure out of the
registration call itself (both delivery channels fire for the same event),
and removes the task from the active registry. -/
theorem C5_timeout_delivery (ui tmo : Int) (id : String) (n : Nat)
    (hrun : (run ui tmo id none n).outcome = none)
    (hex : tmo < 5 * (n : Int)) :
    (run ui tmo id none (n + 1)).outcome = some Outcome.timeout ∧
    (run ui tmo id none (n + 1)).history =
      (run ui tmo id none n).history ++ ["timeout"] ∧
    (run ui tmo id none (n + 1)).events =
      (run ui tmo id none n).events ++
        [Event.errorCb id "timeout", Event.raised id "timeout"] ∧
    (run ui tmo id none (n + 1)).reg = [] := by
  obtain ⟨tk, hreg, htmo, hst⟩ := (run_registry_inv ui tmo id none n).1 hrun
  have hstep : run ui tmo id none (n + 1) = loopBody ui id n (run ui tmo id none n) := by
    simp only [run]
    simp
  rw [hstep, loopBody_timeout_eq ui id n _ tk hreg hrun (by rw [htmo]; exact hex)]
  exact ⟨rfl, rfl, rfl, rfl⟩

/-- C5 witness: with a one-second timeout the first poll iteration leaves the
task running at 0% progress; at the second iteration the elapsed 5 seconds
exceed the timeout and `C5_timeout_delivery` applies. -/
theorem C5_witness :
    (run 90 1 "a" none 1).outcome = none ∧
    ((1 : Int) < 5 * ((1 : Nat) : Int)) ∧
    (run 90 1 "a" none 2).outcome = some Outcome.timeout :=
  ⟨by decide, by decide, (C5_timeout_delivery 90 1 "a" 1 (by decide) (by decide)).1⟩

/-- Claim C6 counterexample: spawn with a 100-second timeout and cancel
during the first sleep; `list_active_tasks` still returns that task's
snapshot, and its status is the terminal `"killed"` — so not every listed
snapshot describes a `"running"` task. -/
theorem C6_counterexample :
    (Monitor.list_active_tasks ((Monitor.kill_task (run 90 100 "a" none 1).reg "a").2) 5).map
        TaskSnapshot.status = ["killed"] ∧
    ¬ (∀ snap ∈ Monitor.list_active_tasks
        ((Monitor.kill_task (run 90 100 "a" none 1).reg "a").2) 5,
        snap.status = "running") :=
  ⟨by decide, by decide⟩

/-- Claim C6 (amended): every snapshot returned by `list_active_tasks`
describes a task whose status is `"running"` or `"killed"` (a cancelled task
stays listed until its poll loop finishes), and after the registration call
has finished — in particular after the terminal completion or error callback
has fired — the task is no longer listed. -/
theorem C6_listActive_amended (ui tmo : Int) (id : String) (ka : Option Nat)
    (n : Nat) (now : Int) :
    (∀ snap ∈ Monitor.list_active_tasks (run ui tmo id ka n).reg now,
      snap.status = "running" ∨ snap.status = "killed") ∧
    ((run ui tmo id ka n).outcome ≠ none →
      Monitor.list_active_tasks (run ui tmo id ka n).reg now = []) := by
  obtain ⟨h1, h2⟩ := run_registry_inv ui tmo id ka n
  constructor
  · intro snap hsnap
    cases hout : (run ui tmo id ka n).outcome with
    | none =>
      obtain ⟨tk, hreg, _, hst⟩ := h1 hout
      rw [hreg] at hsnap
      simp only [Monitor.list_active_tasks, List.map_cons, List.map_nil,
        List.mem_singleton] at hsnap
      rw [hsnap]
      exact hst
    | some o =>
      rw [h2 (by simp [hout])] at hsnap
      simp [Monitor.list_active_tasks] at hsnap
  · intro hne
    rw [h2 hne]
    rfl

/-- C6 witness: a run that the cancel could not stop finishes as completed;
afterwards the outcome is set and `list_active_tasks` is empty. -/
theorem C6_witness :
    (run 90 5 "a" (some 1) 2).outcome ≠ none ∧
    Monitor.list_active_tasks (run 90 5 "a" (some 1) 2).reg 10 = [] :=
  ⟨by decide, (C6_listActive_amended 90 5 "a" (some 1) 2 10).2 (by decide)⟩
